import Mathlib

/-!
Verification of the expense-splitting utilities found in `src/server/db/schema.ts`:
`calculateEqualSplits`, `calculatePercentageSplits`, `validateSplits`,
`validatePayments` and `calculateDebts`.

Modelling conventions (shallow embedding):

* A JavaScript `number` is modelled as `Option ℚ`: `none` models `NaN`, `some q`
  a finite value, with exact rational arithmetic.  Comparisons involving `NaN`
  are `false`, and arithmetic on `NaN` yields `NaN`, as in JavaScript.
* An amount string is modelled by its `parseFloat` value (`Option ℚ` again,
  `none` for a string that parses to `NaN`): the functions under study only
  ever consume amount strings through `parseFloat`, and only ever produce them
  through `toFixed(2)`, whose numeric value is `toFixed2Rat`.
* The string-keyed record `balances` is modelled as an insertion-ordered
  association list, matching `Object.entries` enumeration order for the
  non-integer-like user-id keys the application uses.
* `mode` string unions become inductive types; the returned
  `{isValid, error?}` objects become the `ValidationResult` structure.
-/

namespace Even

attribute [local semireducible] Rat.add Rat.sub Rat.mul

/-- The source's tolerance literal `0.01` as an exact rational (`1/100`),
written with `Rat.divInt` so that concrete runs reduce definitionally. -/
def tol : ℚ := Rat.divInt 1 100

/-- A JavaScript number: `none` is `NaN`, `some q` a finite value. -/
abbrev JSNum := Option ℚ

/-- JavaScript addition: `NaN` propagates. -/
def jadd : JSNum → JSNum → JSNum
  | some a, some b => some (a + b)
  | _, _ => none

/-- JavaScript subtraction: `NaN` propagates. -/
def jsub : JSNum → JSNum → JSNum
  | some a, some b => some (a - b)
  | _, _ => none

/-- JavaScript `Math.abs`: `NaN` propagates. -/
def jabs : JSNum → JSNum
  | some a => some |a|
  | none => none

/-- JavaScript `Math.min`: `NaN` propagates. -/
def jmin : JSNum → JSNum → JSNum
  | some a, some b => some (min a b)
  | _, _ => none

/-- JavaScript `x > y`: `false` whenever an operand is `NaN`. -/
def jgt : JSNum → JSNum → Bool
  | some a, some b => decide (b < a)
  | _, _ => false

/-- JavaScript `x < y`: `false` whenever an operand is `NaN`. -/
def jlt : JSNum → JSNum → Bool
  | some a, some b => decide (a < b)
  | _, _ => false

/-- JavaScript `Math.round`: round to the nearest integer, half toward `+∞`. -/
def jsRound (q : ℚ) : ℤ := ⌊q + 1 / 2⌋

/-- `Math.round(q * 100) / 100`, the source's "round to 2 decimal places". -/
def round2 (q : ℚ) : ℚ := (jsRound (q * 100) : ℚ) / 100

/-- Numeric value of `x.toFixed(2)` for a finite `x`: ECMA-262 first splits off
the sign, then picks the nearest 2-decimal value, ties going to the larger
numerator. -/
def toFixed2Rat (q : ℚ) : ℚ :=
  if q < 0 then -((⌊-q * 100 + 1 / 2⌋ : ℚ) / 100) else (⌊q * 100 + 1 / 2⌋ : ℚ) / 100

/-- Two-digit decimal field, zero padded. -/
def pad2 (n : ℕ) : String := if n < 10 then "0" ++ toString n else toString n

/-- Digits of `x.toFixed(2)` for a finite `x ≥ 0`. -/
def fixed2Core (q : ℚ) : String :=
  let n := (⌊q * 100 + 1 / 2⌋).toNat
  toString (n / 100) ++ "." ++ pad2 (n % 100)

/-- The string `x.toFixed(2)` for a finite `x`. -/
def ratToFixed2 (q : ℚ) : String :=
  if q < 0 then "-" ++ fixed2Core (-q) else fixed2Core q

/-- The string `x.toFixed(2)` for any JavaScript number. -/
def jsToFixed2 : JSNum → String
  | none => "NaN"
  | some q => ratToFixed2 q

/-- `ExpenseSplit` from the source: `userId: string; amount?: string;
percentage?: number`.  `amount = none` models the absent field; a present
string is modelled by its `parseFloat` value. -/
structure ExpenseSplit where
  userId : String
  amount : Option JSNum := none
  percentage : Option ℚ := none
deriving Repr, DecidableEq

/-- `ExpensePayment` from the source, structurally identical to `ExpenseSplit`. -/
structure ExpensePayment where
  userId : String
  amount : Option JSNum := none
  percentage : Option ℚ := none
deriving Repr, DecidableEq

/-- `parseFloat(item.amount ?? "0")`. -/
def parseAmount (amount : Option JSNum) : JSNum :=
  match amount with
  | none => some 0
  | some v => v

/-- `calculateEqualSplits` from the source. -/
def calculateEqualSplits (totalAmount : ℚ) (participantIds : List String) :
    List ExpenseSplit :=
  if participantIds.length = 0 then []
  else
    let splitAmount := totalAmount / (participantIds.length : ℚ)
    let percentage := (100 : ℚ) / (participantIds.length : ℚ)
    participantIds.map fun userId =>
      { userId := userId
        amount := some (some (toFixed2Rat splitAmount))
        percentage := some (round2 percentage) }

/-- `calculatePercentageSplits` from the source.  The conditional
`split.percentage ? … : "0.00"` tests JavaScript truthiness, so a present
percentage equal to `0` also takes the `"0.00"` branch. -/
def calculatePercentageSplits (totalAmount : ℚ) (splits : List ExpenseSplit) :
    List ExpenseSplit :=
  splits.map fun split =>
    { split with
      amount := some (match split.percentage with
        | some p => if p = 0 then some 0 else some (toFixed2Rat (totalAmount * p / 100))
        | none => some 0) }

/-- Split mode string union. -/
inductive SplitMode
  | equal
  | percentage
  | custom
deriving Repr, DecidableEq

/-- Payment mode string union. -/
inductive PaymentMode
  | single
  | percentage
  | custom
deriving Repr, DecidableEq

/-- The `{ isValid: boolean; error?: string }` result object. -/
structure ValidationResult where
  isValid : Bool
  error : Option String := none
deriving Repr, DecidableEq

/-- The percentage sum `splits.reduce((sum, split) => sum + (split.percentage ?? 0), 0)`. -/
def pctSum (splits : List ExpenseSplit) : ℚ :=
  splits.foldl (fun sum split => sum + split.percentage.getD 0) 0

/-- The amount sum `splits.reduce((sum, split) => sum + parseFloat(split.amount ?? "0"), 0)`. -/
def amountSum (splits : List ExpenseSplit) : JSNum :=
  splits.foldl (fun sum split => jadd sum (parseAmount split.amount)) (some 0)

/-- `validateSplits` from the source. -/
def validateSplits (totalAmount : ℚ) (splits : List ExpenseSplit) (mode : SplitMode) :
    ValidationResult :=
  if splits.length = 0 then { isValid := false, error := some "No splits provided" }
  else
    let pctFailure : Option ValidationResult :=
      if mode = SplitMode.percentage then
        let totalPercentage := pctSum splits
        if |totalPercentage - 100| > tol then
          some { isValid := false
                 error := some ("Percentages must add up to 100%, currently " ++
                   ratToFixed2 totalPercentage ++ "%") }
        else none
      else none
    match pctFailure with
    | some r => r
    | none =>
      let customFailure : Option ValidationResult :=
        if mode = SplitMode.custom then
          let totalSplitAmount := amountSum splits
          if jgt (jabs (jsub totalSplitAmount (some totalAmount))) (some tol) then
            some { isValid := false
                   error := some ("Split amounts must add up to " ++ ratToFixed2 totalAmount ++
                     ", currently " ++ jsToFixed2 totalSplitAmount) }
          else none
        else none
      match customFailure with
      | some r => r
      | none => { isValid := true }

/-- The payment percentage sum. -/
def pctSumP (payments : List ExpensePayment) : ℚ :=
  payments.foldl (fun sum payment => sum + payment.percentage.getD 0) 0

/-- The payment amount sum. -/
def amountSumP (payments : List ExpensePayment) : JSNum :=
  payments.foldl (fun sum payment => jadd sum (parseAmount payment.amount)) (some 0)

/-- `validatePayments` from the source. -/
def validatePayments (totalAmount : ℚ) (payments : List ExpensePayment)
    (mode : PaymentMode) : ValidationResult :=
  if payments.length = 0 then { isValid := false, error := some "No payments provided" }
  else
    let singleFailure : Option ValidationResult :=
      if mode = PaymentMode.single then
        match payments.head? with
        | none => some { isValid := false, error := some "No payment data" }
        | some payment =>
          let paidAmount := parseAmount payment.amount
          if jgt (jabs (jsub paidAmount (some totalAmount))) (some tol) then
            some { isValid := false
                   error := some ("Single payer must pay the full amount of " ++
                     ratToFixed2 totalAmount) }
          else none
      else none
    match singleFailure with
    | some r => r
    | none =>
      let pctFailure : Option ValidationResult :=
        if mode = PaymentMode.percentage then
          let totalPercentage := pctSumP payments
          if |totalPercentage - 100| > tol then
            some { isValid := false
                   error := some ("Payment percentages must add up to 100%, currently " ++
                     ratToFixed2 totalPercentage ++ "%") }
          else none
        else none
      match pctFailure with
      | some r => r
      | none =>
        let customFailure : Option ValidationResult :=
          if mode = PaymentMode.custom then
            let totalPaymentAmount := amountSumP payments
            if jgt (jabs (jsub totalPaymentAmount (some totalAmount))) (some tol) then
              some { isValid := false
                     error := some ("Payment amounts must add up to " ++
                       ratToFixed2 totalAmount ++ ", currently " ++
                       jsToFixed2 totalPaymentAmount) }
            else none
          else none
        match customFailure with
        | some r => r
        | none => { isValid := true }

/-- The `balances` record: an insertion-ordered association list from user id to
JavaScript number. -/
abbrev Balances := List (String × JSNum)

/-- Reading `balances[k] ?? 0`: the stored number if the key is present
(possibly `NaN` — `??` does not replace `NaN`), `0` otherwise. -/
def getBal (bal : Balances) (k : String) : JSNum :=
  match bal.find? (fun p => p.1 == k) with
  | some p => p.2
  | none => some 0

/-- Writing `balances[k] = v`: update in place when the key is present,
append otherwise. -/
def setBal (bal : Balances) (k : String) (v : JSNum) : Balances :=
  if bal.any (fun p => p.1 == k) then
    bal.map (fun p => if p.1 == k then (k, v) else p)
  else bal ++ [(k, v)]

/-- One entry of the returned debts array, `{from, to, amount}`. -/
structure Debt where
  from_ : String
  to_ : String
  amount : JSNum
deriving Repr, DecidableEq

/-- `balances[split.userId] = (balances[split.userId] ?? 0) - amount`. -/
def applySplit (bal : Balances) (split : ExpenseSplit) : Balances :=
  setBal bal split.userId (jsub (getBal bal split.userId) (parseAmount split.amount))

/-- `balances[payment.userId] = (balances[payment.userId] ?? 0) + amount`. -/
def applyPayment (bal : Balances) (payment : ExpensePayment) : Balances :=
  setBal bal payment.userId (jadd (getBal bal payment.userId) (parseAmount payment.amount))

/-- The `balances` record of `calculateDebts` after both `forEach` passes. -/
def balancesOf (splits : List ExpenseSplit) (payments : List ExpensePayment) : Balances :=
  payments.foldl applyPayment (splits.foldl applySplit [])

/-- State of the settlement loops: the mutated `balances` record together with
the `debts` array built so far. -/
structure SettleState where
  balances : Balances
  debts : List Debt

/-- Body of the inner `creditors.forEach` of `calculateDebts`.  `dname` is the
current debtor's id, the accumulator pairs the state with `remainingDebt`, and
`c` is the current `[creditor, creditAmount]` entry of the `Object.entries`
snapshot — the compared and settled credit is the snapshot value `c.2`, not the
mutated `balances[creditor]`. -/
def settleStep (dname : String) (acc : SettleState × JSNum) (c : String × JSNum) :
    SettleState × JSNum :=
  if jgt acc.2 (some tol) && jgt c.2 (some tol) then
    let settleAmount := jmin acc.2 c.2
    ({ balances := setBal acc.1.balances c.1 (jsub (getBal acc.1.balances c.1) settleAmount)
       debts := acc.1.debts ++ [{ from_ := dname, to_ := c.1, amount := settleAmount }] },
     jsub acc.2 settleAmount)
  else acc

/-- Body of the outer `debtors.forEach`: run the inner loop with
`remainingDebt = Math.abs(debtAmount)`. -/
def settleDebtor (creditors : Balances) (st : SettleState) (d : String × JSNum) :
    SettleState :=
  (creditors.foldl (settleStep d.1) (st, jabs d.2)).1

/-- `calculateDebts` from the source. -/
def calculateDebts (splits : List ExpenseSplit) (payments : List ExpensePayment) :
    List Debt :=
  let balances := balancesOf splits payments
  let creditors := balances.filter (fun p => jgt p.2 (some tol))
  let debtors := balances.filter (fun p => jlt p.2 (some (-tol)))
  let final := debtors.foldl (settleDebtor creditors) { balances := balances, debts := [] }
  final.debts.filter (fun debt => jgt debt.amount (some tol))

/-- Modelled from the spec, §4.4 step 5: the same inner loop body, except that
the credit compared and settled against is re-read from the mutated `balances`
record on every iteration — "decrement both remaining amounts (creditor's
stored balance is mutated in place so later debtors see the reduced credit)" —
rather than taken from the `Object.entries` snapshot. -/
def settleStepSpec (dname : String) (acc : SettleState × JSNum) (c : String × JSNum) :
    SettleState × JSNum :=
  let creditAmount := getBal acc.1.balances c.1
  if jgt acc.2 (some tol) && jgt creditAmount (some tol) then
    let settleAmount := jmin acc.2 creditAmount
    ({ balances := setBal acc.1.balances c.1 (jsub (getBal acc.1.balances c.1) settleAmount)
       debts := acc.1.debts ++ [{ from_ := dname, to_ := c.1, amount := settleAmount }] },
     jsub acc.2 settleAmount)
  else acc

/-- Modelled from the spec: the outer loop of the reference greedy settlement. -/
def settleDebtorSpec (creditors : Balances) (st : SettleState) (d : String × JSNum) :
    SettleState :=
  (creditors.foldl (settleStepSpec d.1) (st, jabs d.2)).1

/-- Modelled from the spec: the reference greedy settlement of §4.4, identical
to `calculateDebts` except that each debtor sees creditor balances as already
reduced by earlier transfers (`settleStepSpec`). -/
def calculateDebtsSpec (splits : List ExpenseSplit) (payments : List ExpensePayment) :
    List Debt :=
  let balances := balancesOf splits payments
  let creditors := balances.filter (fun p => jgt p.2 (some tol))
  let debtors := balances.filter (fun p => jlt p.2 (some (-tol)))
  let final := debtors.foldl (settleDebtorSpec creditors) { balances := balances, debts := [] }
  final.debts.filter (fun debt => jgt debt.amount (some tol))

/-- Sum of the transfer amounts sent by user `u`. -/
def sentBy (ds : List Debt) (u : String) : ℚ :=
  ((ds.filter (fun d => d.from_ == u)).map (fun d => d.amount.getD 0)).sum

/-- Sum of the transfer amounts received by user `u`. -/
def recvBy (ds : List Debt) (u : String) : ℚ :=
  ((ds.filter (fun d => d.to_ == u)).map (fun d => d.amount.getD 0)).sum

/-- Sum of the amounts of a list of transfers. -/
def amtSum (ts : List Debt) : ℚ := (ts.map (fun t => t.amount.getD 0)).sum

/-- Bounds satisfied by one transfer emitted while settling debtor `dname`
whose remaining debt at the start of the inner loop was `r0`: the amount is a
finite value above the tolerance, at most `r0`, and at most the snapshot credit
of the receiving creditor. -/
def transferOk (creditors : Balances) (r0 : ℚ) (dname : String) (t : Debt) : Prop :=
  t.from_ = dname ∧ ∃ a cv, t.amount = some a ∧ tol < a ∧ a ≤ r0 ∧
    (t.to_, some cv) ∈ creditors ∧ tol < cv ∧ a ≤ cv

/-- The splits of the conservation counterexample: `a` and `b` each owe 30. -/
def cexSplits : List ExpenseSplit :=
  [{ userId := "a", amount := some (some 30) }, { userId := "b", amount := some (some 30) }]

/-- The payments of the conservation counterexample: `c` paid 20. -/
def cexPayments : List ExpensePayment :=
  [{ userId := "c", amount := some (some 20) }]

/-- Fan-in splits (the repository's own "multiple creditors" test input):
four participants owe 25 each. -/
def fanSplits : List ExpenseSplit :=
  [{ userId := "alice", amount := some (some 25) },
   { userId := "bob", amount := some (some 25) },
   { userId := "charlie", amount := some (some 25) },
   { userId := "dave", amount := some (some 25) }]

/-- Fan-in payments: `alice` and `bob` paid 50 each. -/
def fanPayments : List ExpensePayment :=
  [{ userId := "alice", amount := some (some 50) },
   { userId := "bob", amount := some (some 50) }]

theorem tol_eq : tol = 1 / 100 := by norm_num [tol, Rat.divInt]

theorem jadd_none_left (x : JSNum) : jadd none x = none := by cases x <;> rfl

theorem jadd_none_right (x : JSNum) : jadd x none = none := by cases x <;> rfl

theorem jgt_none_left (x : JSNum) : jgt none x = false := by cases x <;> rfl

/-- Folding `jadd` from a `NaN` accumulator stays `NaN`. -/
theorem foldl_jadd_none_init {α : Type} (f : α → JSNum) (l : List α) :
    l.foldl (fun sum x => jadd sum (f x)) none = none := by
  induction l with
  | nil => rfl
  | cons b t ih => simpa [jadd_none_left] using ih

/-- Folding `jadd` over a list with a `NaN` element yields `NaN`. -/
theorem foldl_jadd_eq_none {α : Type} (f : α → JSNum) (l : List α) (a : α)
    (ha : a ∈ l) (hfa : f a = none) (init : JSNum) :
    l.foldl (fun sum x => jadd sum (f x)) init = none := by
  induction l generalizing init with
  | nil => cases ha
  | cons b t ih =>
    rcases List.mem_cons.mp ha with hab | hat
    · subst hab
      simpa [hfa, jadd_none_right] using foldl_jadd_none_init f t
    · exact ih hat _

/-- Custom-mode split sums are `NaN` as soon as one amount string is non-numeric. -/
theorem amountSum_eq_none (splits : List ExpenseSplit) (s : ExpenseSplit)
    (hs : s ∈ splits) (hsa : s.amount = some none) : amountSum splits = none :=
  foldl_jadd_eq_none (fun split : ExpenseSplit => parseAmount split.amount) splits s hs
    (by show parseAmount s.amount = none; rw [hsa]; rfl) (some 0)

/-- Custom-mode payment sums are `NaN` as soon as one amount string is non-numeric. -/
theorem amountSumP_eq_none (payments : List ExpensePayment) (p : ExpensePayment)
    (hp : p ∈ payments) (hpa : p.amount = some none) : amountSumP payments = none :=
  foldl_jadd_eq_none (fun payment : ExpensePayment => parseAmount payment.amount) payments p hp
    (by show parseAmount p.amount = none; rw [hpa]; rfl) (some 0)

/-- C3 counterexample: in custom mode against total 100, a single split with a
non-numeric amount string validates as `isValid = true`, while the same split
with the amount replaced by `"0"` validates as `isValid = false` — the two
verdicts differ, so a non-numeric amount is not treated as `0`. -/
theorem validateSplits_nonNumeric_ne_zero_cex :
    (validateSplits 100 [{ userId := "u1", amount := some none }] SplitMode.custom).isValid
      = true ∧
    (validateSplits 100 [{ userId := "u1", amount := some (some 0) }] SplitMode.custom).isValid
      = false := by
  exact ⟨rfl, rfl⟩

/-- C3 (amended): in custom mode an item whose amount field is absent
contributes `0` to the sum (`parseFloat("0")`), but an item whose amount is a
non-numeric string makes the whole sum `NaN`; the tolerance comparison on `NaN`
is then false, so validation succeeds with `isValid = true`.  No exception is
raised: a result value is always returned. -/
theorem validate_custom_nonNumeric_isValid
    (T : ℚ) (splits : List ExpenseSplit) (payments : List ExpensePayment)
    (s : ExpenseSplit) (hs : s ∈ splits) (hsa : s.amount = some none)
    (p : ExpensePayment) (hp : p ∈ payments) (hpa : p.amount = some none) :
    validateSplits T splits SplitMode.custom = { isValid := true, error := none } ∧
    validatePayments T payments PaymentMode.custom = { isValid := true, error := none } ∧
    parseAmount none = some 0 := by
  have hne : splits ≠ [] := List.ne_nil_of_mem hs
  have hneP : payments ≠ [] := List.ne_nil_of_mem hp
  have hsum := amountSum_eq_none splits s hs hsa
  have hsumP := amountSumP_eq_none payments p hp hpa
  refine ⟨?_, ?_, rfl⟩
  · unfold validateSplits
    rw [if_neg (fun hc => hne (List.length_eq_zero.mp hc))]
    simp [hsum, jsub, jabs, jgt]
  · unfold validatePayments
    rw [if_neg (fun hc => hneP (List.length_eq_zero.mp hc))]
    simp [hsumP, jsub, jabs, jgt]

/-- Witness for the amended C3 theorem at a concrete input. -/
theorem validate_custom_nonNumeric_isValid_witness :
    validateSplits 7 [{ userId := "u1", amount := some none }] SplitMode.custom
      = { isValid := true, error := none } ∧
    validatePayments 7 [{ userId := "v1", amount := some none }] PaymentMode.custom
      = { isValid := true, error := none } ∧
    parseAmount none = some 0 :=
  validate_custom_nonNumeric_isValid 7
    [{ userId := "u1", amount := some none }] [{ userId := "v1", amount := some none }]
    { userId := "u1", amount := some none } (by simp) rfl
    { userId := "v1", amount := some none } (by simp) rfl

/-- C4: in percentage mode a percentage sum of exactly 100.01 is accepted and a
sum of exactly 100.02 is rejected — the acceptance boundary is the absolute
epsilon 0.01 around 100. -/
theorem validateSplits_percentage_boundary
    (T : ℚ) (s1 s2 : List ExpenseSplit) (h1 : s1 ≠ []) (h2 : s2 ≠ [])
    (hp1 : pctSum s1 = 10001 / 100) (hp2 : pctSum s2 = 10002 / 100) :
    (validateSplits T s1 SplitMode.percentage).isValid = true ∧
    (validateSplits T s2 SplitMode.percentage).isValid = false := by
  constructor
  · unfold validateSplits
    rw [if_neg (fun hc => h1 (List.length_eq_zero.mp hc))]
    have habs : |pctSum s1 - 100| = 1 / 100 := by
      rw [hp1, show (10001 : ℚ) / 100 - 100 = 1 / 100 by norm_num]
      exact abs_of_pos (by norm_num)
    have hlt : ¬(|pctSum s1 - 100| > tol) := by
      rw [habs, tol_eq]
      exact lt_irrefl _
    simp [hlt]
  · unfold validateSplits
    rw [if_neg (fun hc => h2 (List.length_eq_zero.mp hc))]
    have hgt : |pctSum s2 - 100| > tol := by
      rw [hp2, tol_eq, show (10002 : ℚ) / 100 - 100 = 1 / 50 by norm_num,
        abs_of_pos (show (0 : ℚ) < 1 / 50 by norm_num)]
      norm_num
    simp [hgt]

/-- Witness for the C4 boundary theorem at concrete one-element lists. -/
theorem validateSplits_percentage_boundary_witness :
    (validateSplits 100 [{ userId := "u1", percentage := some (10001 / 100) }]
      SplitMode.percentage).isValid = true ∧
    (validateSplits 100 [{ userId := "u1", percentage := some (10002 / 100) }]
      SplitMode.percentage).isValid = false :=
  validateSplits_percentage_boundary 100
    [{ userId := "u1", percentage := some (10001 / 100) }]
    [{ userId := "u1", percentage := some (10002 / 100) }]
    (by simp) (by simp) (by norm_num [pctSum]) (by norm_num [pctSum])

/-- C5: every transfer returned by `calculateDebts` carries a finite amount
strictly greater than 0.01 (the final filter discards anything else), so no
participant ever owes or is owed a zero or negative amount; and empty input
sequences yield an empty transfer list. -/
theorem calculateDebts_positive_amounts
    (splits : List ExpenseSplit) (payments : List ExpensePayment) :
    (∀ t ∈ calculateDebts splits payments, ∃ q, t.amount = some q ∧ 1 / 100 < q) ∧
    calculateDebts [] [] = [] := by
  constructor
  · intro t ht
    simp only [calculateDebts] at ht
    have hp := (List.mem_filter.mp ht).2
    cases hamt : t.amount with
    | none => rw [hamt] at hp; simp [jgt] at hp
    | some q =>
      refine ⟨q, rfl, ?_⟩
      rw [hamt] at hp
      simpa [jgt, tol_eq] using hp
  · rfl

/-- Witness for the C5 theorem: the single transfer of the simple-pair example. -/
theorem calculateDebts_positive_amounts_witness :
    (∃ q, (Debt.mk "bob" "alice" (some 50)).amount = some q ∧ 1 / 100 < q) ∧
    calculateDebts [] [] = [] :=
  ⟨(calculateDebts_positive_amounts
      [{ userId := "alice", amount := some (some 50) },
       { userId := "bob", amount := some (some 50) }]
      [{ userId := "alice", amount := some (some 100) }]).1
      (Debt.mk "bob" "alice" (some 50)) (by decide),
   (calculateDebts_positive_amounts [] []).2⟩

/-- C6: for every total and mode, the empty splits list and the empty payments
list are rejected with the exact messages "No splits provided" and
"No payments provided"; validity is reported in the structured result. -/
theorem validate_empty_invalid (T : ℚ) (ms : SplitMode) (mp : PaymentMode) :
    validateSplits T [] ms = { isValid := false, error := some "No splits provided" } ∧
    validatePayments T [] mp = { isValid := false, error := some "No payments provided" } :=
  ⟨rfl, rfl⟩

/-- C7: `calculateEqualSplits T ids` returns one split per participant in input
order, each with amount `toFixed(2)` of `T / N` and percentage `100 / N` rounded
to two decimals; for an empty participant list it returns the empty list. -/
theorem calculateEqualSplits_spec (T : ℚ) (ids : List String) :
    calculateEqualSplits T ids =
      ids.map (fun u =>
        { userId := u
          amount := some (some (toFixed2Rat (T / (ids.length : ℚ))))
          percentage := some (round2 ((100 : ℚ) / (ids.length : ℚ))) }) := by
  cases ids with
  | nil => rfl
  | cons h t => simp [calculateEqualSplits]

/-- C8: `calculatePercentageSplits` maps each split to a copy whose amount is
`toFixed(2)` of `totalAmount * percentage / 100` when a percentage is present
and `"0.00"` when it is absent, passing `userId` and `percentage` through
unchanged.  (A present percentage of `0` takes the `"0.00"` branch by
truthiness, which coincides with the formula: `toFixed2Rat 0 = 0`.) -/
theorem calculatePercentageSplits_spec (T : ℚ) (splits : List ExpenseSplit) :
    calculatePercentageSplits T splits =
      splits.map (fun split =>
        { split with amount := some (match split.percentage with
            | some p => some (toFixed2Rat (T * p / 100))
            | none => some 0) }) := by
  unfold calculatePercentageSplits
  apply List.map_congr_left
  intro s _
  cases hp : s.percentage with
  | none => rfl
  | some p =>
    by_cases h0 : p = 0
    · subst h0
      have h00 : toFixed2Rat (0 : ℚ) = 0 := by
        rw [toFixed2Rat, if_neg (lt_irrefl 0)]
        norm_num
      simp [h00]
    · simp [h0]

/-- C9: `calculateDebts` is a pure function of its arguments — the source's
`balances` and `debts` structures are local to one call, so two invocations on
the same input return identical transfer lists. -/
theorem calculateDebts_deterministic
    (splits : List ExpenseSplit) (payments : List ExpensePayment) :
    calculateDebts splits payments = calculateDebts splits payments := rfl

/-- C10: in single mode only the first payment is inspected: whenever its parsed
amount is within 0.01 of the total, the result is valid no matter what the rest
of the list contains — the rule that exactly one participant pays is not
enforced. -/
theorem validatePayments_single_first_only
    (T : ℚ) (p : ExpensePayment) (rest : List ExpensePayment) (q : ℚ)
    (hq : parseAmount p.amount = some q) (h : |q - T| ≤ 1 / 100) :
    validatePayments T (p :: rest) PaymentMode.single = { isValid := true, error := none } := by
  have hb : jgt (jabs (jsub (parseAmount p.amount) (some T))) (some tol) = false := by
    rw [hq]
    simp only [jsub, jabs, jgt]
    exact decide_eq_false (not_lt.mpr (tol_eq ▸ h))
  unfold validatePayments
  rw [if_neg (by simp)]
  simp only [List.head?_cons]
  rw [hb]
  simp

/-- Witness for the C10 theorem: a second payment with a wild amount does not
invalidate a single-mode payment list whose first entry pays the total. -/
theorem validatePayments_single_first_only_witness :
    validatePayments 100
      [{ userId := "u1", amount := some (some 100) },
       { userId := "u2", amount := some (some 999) }]
      PaymentMode.single = { isValid := true, error := none } :=
  validatePayments_single_first_only 100
    { userId := "u1", amount := some (some 100) }
    [{ userId := "u2", amount := some (some 999) }] 100 rfl (by norm_num)

/-- C2: on the repository's own "multiple creditors" test input the code sends
both debtors' transfers to `alice` — the second debtor still sees `alice`'s
original credit of 25 from the `Object.entries` snapshot — whereas the spec's
settlement, which re-reads the mutated balance, sends the second transfer to
`bob`; the two results differ. -/
theorem calculateDebts_snapshot_bug :
    calculateDebts fanSplits fanPayments =
      [{ from_ := "charlie", to_ := "alice", amount := some 25 },
       { from_ := "dave", to_ := "alice", amount := some 25 }] ∧
    calculateDebtsSpec fanSplits fanPayments =
      [{ from_ := "charlie", to_ := "alice", amount := some 25 },
       { from_ := "dave", to_ := "bob", amount := some 25 }] ∧
    calculateDebts fanSplits fanPayments ≠ calculateDebtsSpec fanSplits fanPayments := by
  refine ⟨by decide, by decide, by decide⟩

/-- C1 counterexample: with splits `a: 30, b: 30` and payment `c: 20`, creditor
`c` (original credit 20) receives 40 in total and debtor `a` (original debt 30)
sends only 20 — both conservation sums are off by far more than the 0.01
tolerance. -/
theorem calculateDebts_conservation_cex :
    calculateDebts cexSplits cexPayments =
      [{ from_ := "a", to_ := "c", amount := some 20 },
       { from_ := "b", to_ := "c", amount := some 20 }] ∧
    ("c", some 20) ∈ balancesOf cexSplits cexPayments ∧
    recvBy (calculateDebts cexSplits cexPayments) "c" = 40 ∧
    ¬(|(40 : ℚ) - 20| ≤ 1 / 100) ∧
    ("a", some (-30)) ∈ balancesOf cexSplits cexPayments ∧
    sentBy (calculateDebts cexSplits cexPayments) "a" = 20 ∧
    ¬(|(20 : ℚ) - 30| ≤ 1 / 100) := by
  refine ⟨by decide, by decide, by decide, by norm_num, by decide, by decide, by norm_num⟩

theorem tol_pos : 0 < tol := by rw [tol_eq]; norm_num

theorem jgt_some_true {x : JSNum} {b : ℚ} (h : jgt x (some b) = true) :
    ∃ q, x = some q ∧ b < q := by
  cases x with
  | none => simp [jgt] at h
  | some q => exact ⟨q, rfl, by simpa [jgt] using h⟩

theorem jlt_some_true {x : JSNum} {b : ℚ} (h : jlt x (some b) = true) :
    ∃ q, x = some q ∧ q < b := by
  cases x with
  | none => simp [jlt] at h
  | some q => exact ⟨q, rfl, by simpa [jlt] using h⟩

theorem transferOk_mono {creditors : Balances} {r1 r2 : ℚ} {dname : String} {t : Debt}
    (hr : r1 ≤ r2) (h : transferOk creditors r1 dname t) : transferOk creditors r2 dname t := by
  obtain ⟨hfrom, a, cv, ha, hta, har, hmem, hcv, hacv⟩ := h
  exact ⟨hfrom, a, cv, ha, hta, har.trans hr, hmem, hcv, hacv⟩

theorem amtSum_nil : amtSum [] = 0 := rfl

theorem amtSum_cons (t : Debt) (ts : List Debt) :
    amtSum (t :: ts) = t.amount.getD 0 + amtSum ts := by
  simp [amtSum]

theorem sentBy_append (A B : List Debt) (u : String) :
    sentBy (A ++ B) u = sentBy A u + sentBy B u := by
  simp [sentBy, List.filter_append]

theorem sentBy_eq_amtSum {L : List Debt} {u : String} (h : ∀ t ∈ L, t.from_ = u) :
    sentBy L u = amtSum L := by
  unfold sentBy amtSum
  rw [List.filter_eq_self.mpr (fun t ht => by simp [h t ht])]

theorem sentBy_eq_zero {L : List Debt} {u : String} (h : ∀ t ∈ L, t.from_ ≠ u) :
    sentBy L u = 0 := by
  unfold sentBy
  rw [List.filter_eq_nil_iff.mpr (fun t ht => by simp [h t ht])]
  rfl

/-- Inner-loop invariant: folding `settleStep` over creditor entries appends a
block of transfers for debtor `dname`, each within its creditor's snapshot
credit and within the starting remaining debt `r`, and the block total plus the
final remaining debt equals `r`. -/
theorem settle_inner (dname : String) (creditors : Balances)
    (todo : List (String × JSNum)) :
    ∀ (st0 : SettleState) (r : ℚ), 0 ≤ r → (∀ c ∈ todo, c ∈ creditors) →
    ∃ bal2 L r2,
      todo.foldl (settleStep dname) (st0, some r)
        = ({ balances := bal2, debts := st0.debts ++ L }, some r2) ∧
      0 ≤ r2 ∧ amtSum L + r2 = r ∧ ∀ t ∈ L, transferOk creditors r dname t := by
  induction todo with
  | nil =>
    intro st0 r hr _
    exact ⟨st0.balances, [], r, by simp, hr, by simp [amtSum], by simp⟩
  | cons c cs ih =>
    intro st0 r hr htodo
    have hcs : ∀ x ∈ cs, x ∈ creditors := fun x hx => htodo x (List.mem_cons_of_mem c hx)
    rw [List.foldl_cons]
    cases hg : (jgt (some r) (some tol) && jgt c.2 (some tol)) with
    | false =>
      have hstep : settleStep dname (st0, some r) c = (st0, some r) := by
        simp only [settleStep, hg]
        rfl
      rw [hstep]
      exact ih st0 r hr hcs
    | true =>
      obtain ⟨hg1, hg2⟩ := (Bool.and_eq_true _ _).mp hg
      have hrtol : tol < r := by simpa [jgt] using hg1
      obtain ⟨cv, hc2, hcvtol⟩ := jgt_some_true hg2
      have hmin : tol < min r cv := lt_min hrtol hcvtol
      have hminr : min r cv ≤ r := min_le_left r cv
      have hstep : settleStep dname (st0, some r) c =
          ({ balances := setBal st0.balances c.1
               (jsub (getBal st0.balances c.1) (some (min r cv)))
             debts := st0.debts ++ [{ from_ := dname, to_ := c.1, amount := some (min r cv) }] },
           some (r - min r cv)) := by
        simp only [settleStep, hg, if_true]
        rw [hc2]
        rfl
      rw [hstep]
      obtain ⟨bal2, L, r2, hfold, hr2, hsum, hok⟩ :=
        ih { balances := setBal st0.balances c.1
               (jsub (getBal st0.balances c.1) (some (min r cv)))
             debts := st0.debts ++ [{ from_ := dname, to_ := c.1, amount := some (min r cv) }] }
          (r - min r cv) (sub_nonneg.mpr hminr) hcs
      have hcmem : (c.1, some cv) ∈ creditors := by
        have hc := htodo c (List.mem_cons_self c cs)
        rwa [show c = (c.1, some cv) by rw [← hc2]] at hc
      refine ⟨bal2, { from_ := dname, to_ := c.1, amount := some (min r cv) } :: L, r2, ?_, hr2, ?_, ?_⟩
      · rw [hfold]
        simp
      · rw [amtSum_cons]
        simp only [Option.getD_some]
        linarith
      · intro t ht
        rcases List.mem_cons.mp ht with h0 | hL
        · subst h0
          exact ⟨rfl, min r cv, cv, rfl, hmin, hminr, hcmem, hcvtol, min_le_right r cv⟩
        · exact transferOk_mono (sub_le_self r (le_of_lt (lt_trans tol_pos hmin))) (hok t hL)

theorem nodup_keys_setBal (bal : Balances) (k : String) (v : JSNum)
    (h : (bal.map Prod.fst).Nodup) : ((setBal bal k v).map Prod.fst).Nodup := by
  unfold setBal
  by_cases hany : bal.any (fun p => p.1 == k) = true
  · rw [if_pos hany]
    have hmap : ((bal.map (fun p => if p.1 == k then (k, v) else p)).map Prod.fst)
        = bal.map Prod.fst := by
      rw [List.map_map]
      apply List.map_congr_left
      intro p _
      simp only [Function.comp_apply]
      by_cases hpk : (p.1 == k) = true
      · rw [if_pos hpk]
        exact (eq_of_beq hpk).symm
      · rw [if_neg hpk]
    rw [hmap]
    exact h
  · rw [if_neg hany]
    rw [List.map_append]
    rw [List.nodup_append]
    refine ⟨h, List.nodup_singleton k, ?_⟩
    intro x hx hk
    simp only [List.map_cons, List.map_nil, List.mem_singleton] at hk
    obtain ⟨p, hp, hpx⟩ := List.mem_map.mp hx
    exact hany (List.any_eq_true.mpr ⟨p, hp, by simp [hpx, hk]⟩)

theorem nodup_keys_foldl {α : Type} (f : Balances → α → Balances)
    (hf : ∀ bal a, (bal.map Prod.fst).Nodup → ((f bal a).map Prod.fst).Nodup)
    (l : List α) : ∀ bal, (bal.map Prod.fst).Nodup → ((l.foldl f bal).map Prod.fst).Nodup := by
  induction l with
  | nil => exact fun bal h => h
  | cons a t ih => exact fun bal h => ih _ (hf bal a h)

/-- The keys of the `balances` record are distinct: each user id appears once. -/
theorem nodup_keys_balancesOf (splits : List ExpenseSplit) (payments : List ExpensePayment) :
    ((balancesOf splits payments).map Prod.fst).Nodup := by
  unfold balancesOf
  apply nodup_keys_foldl applyPayment
    (fun bal p h => by unfold applyPayment; exact nodup_keys_setBal _ _ _ h)
  apply nodup_keys_foldl applySplit
    (fun bal s h => by unfold applySplit; exact nodup_keys_setBal _ _ _ h)
  simp

/-- Outer-loop invariant: folding `settleDebtor` over the debtor entries appends
transfers whose senders are debtors, each transfer within the snapshot bounds of
its debtor and creditor, and each debtor's total sent amount at most its debt. -/
theorem settle_outer (creditors : Balances) (dtodo : List (String × JSNum)) :
    ∀ (st0 : SettleState),
    (∀ d ∈ dtodo, ∃ b, d.2 = some b ∧ b < -tol) →
    (dtodo.map Prod.fst).Nodup →
    ∃ L, (dtodo.foldl (settleDebtor creditors) st0).debts = st0.debts ++ L ∧
      (∀ t ∈ L, ∃ b, (t.from_, some b) ∈ dtodo ∧ b < -tol ∧
        transferOk creditors (-b) t.from_ t) ∧
      (∀ u bu, (u, some bu) ∈ dtodo → bu < -tol → sentBy L u ≤ -bu) ∧
      (∀ u, u ∉ dtodo.map Prod.fst → sentBy L u = 0) := by
  induction dtodo with
  | nil =>
    intro st0 _ _
    exact ⟨[], by simp, by simp, by simp, fun u _ => rfl⟩
  | cons d ds ih =>
    intro st0 hvals hnodup
    obtain ⟨b, hd2, hb⟩ := hvals d (List.mem_cons_self d ds)
    have hbneg : b < 0 := lt_trans hb (neg_lt_zero.mpr tol_pos)
    have habs : jabs d.2 = some (-b) := by rw [hd2]; simp [jabs, abs_of_neg hbneg]
    obtain ⟨bal2, L1, r2, hfold, hr2, hsum, hok⟩ :=
      settle_inner d.1 creditors creditors st0 (-b) (le_of_lt (neg_pos.mpr hbneg))
        (fun c hc => hc)
    have hst1 : settleDebtor creditors st0 d = { balances := bal2, debts := st0.debts ++ L1 } := by
      unfold settleDebtor
      rw [habs, hfold]
    rw [List.foldl_cons, hst1]
    have hvals2 : ∀ x ∈ ds, ∃ bx, x.2 = some bx ∧ bx < -tol :=
      fun x hx => hvals x (List.mem_cons_of_mem d hx)
    rw [List.map_cons, List.nodup_cons] at hnodup
    obtain ⟨L2, hdebts2, hok2, hsum2, hzero2⟩ :=
      ih { balances := bal2, debts := st0.debts ++ L1 } hvals2 hnodup.2
    refine ⟨L1 ++ L2, ?_, ?_, ?_, ?_⟩
    · rw [hdebts2]
      simp [List.append_assoc]
    · intro t ht
      rcases List.mem_append.mp ht with h1 | h2
      · have hfrom := (hok t h1).1
        refine ⟨b, ?_, hb, ?_⟩
        · rw [hfrom, show ((d.1 : String), (some b : JSNum)) = d from by rw [← hd2]]
          exact List.mem_cons_self d ds
        · rw [hfrom]
          exact hok t h1
      · obtain ⟨b2, hmem, hb2, hok3⟩ := hok2 t h2
        exact ⟨b2, List.mem_cons_of_mem d hmem, hb2, hok3⟩
    · intro u bu hmem hbu
      rw [sentBy_append]
      rcases List.mem_cons.mp hmem with heq | htl
      · have hu : u = d.1 := congrArg Prod.fst heq
        have hbval : (some bu : JSNum) = d.2 := congrArg Prod.snd heq
        rw [hd2] at hbval
        have hbb : bu = b := Option.some_inj.mp hbval
        subst hu
        have hA : sentBy L1 d.1 = amtSum L1 := sentBy_eq_amtSum (fun t ht => (hok t ht).1)
        have hB : sentBy L2 d.1 = 0 := hzero2 d.1 hnodup.1
        rw [hA, hB, hbb]
        linarith
      · have huin : u ∈ ds.map Prod.fst := List.mem_map.mpr ⟨(u, some bu), htl, rfl⟩
        have hne : d.1 ≠ u := fun hcontr => hnodup.1 (hcontr ▸ huin)
        have hA : sentBy L1 u = 0 :=
          sentBy_eq_zero (fun t ht => by rw [(hok t ht).1]; exact hne)
        rw [hA, zero_add]
        exact hsum2 u bu htl hbu
    · intro u hu
      simp only [List.map_cons, List.mem_cons, not_or] at hu
      rw [sentBy_append,
        sentBy_eq_zero (fun t ht => by rw [(hok t ht).1]; exact fun hh => hu.1 hh.symm),
        hzero2 u hu.2, zero_add]

/-- C1 (amended): every transfer emitted by `calculateDebts` stays within both
parties' original net imbalances — its amount is at most the sender's original
net debt and at most the receiver's original net credit — and the total of the
"from" amounts of each debtor never exceeds that debtor's original debt.  The
conservation equalities of the original claim do not hold: a debtor may remain
partly unsettled and a creditor may receive more than its original credit,
because the inner loop reads credits from the `Object.entries` snapshot. -/
theorem calculateDebts_bounds (splits : List ExpenseSplit) (payments : List ExpensePayment) :
    (∀ t ∈ calculateDebts splits payments,
      ∃ a bD cv, t.amount = some a ∧
        (t.from_, some bD) ∈ balancesOf splits payments ∧ bD < -(1 / 100) ∧ a ≤ -bD ∧
        (t.to_, some cv) ∈ balancesOf splits payments ∧ 1 / 100 < cv ∧ a ≤ cv) ∧
    (∀ u bD, (u, some bD) ∈ balancesOf splits payments → bD < -(1 / 100) →
      sentBy (calculateDebts splits payments) u ≤ -bD) := by
  have hD : ∀ d ∈ (balancesOf splits payments).filter (fun p => jlt p.2 (some (-tol))),
      ∃ b, d.2 = some b ∧ b < -tol := by
    intro d hd
    exact jlt_some_true ((List.mem_filter.mp hd).2)
  have hnodupD :
      ((((balancesOf splits payments).filter (fun p => jlt p.2 (some (-tol)))).map
        Prod.fst)).Nodup :=
    List.Nodup.sublist ((List.filter_sublist _).map Prod.fst)
      (nodup_keys_balancesOf splits payments)
  obtain ⟨L, hLdebts, hLok, hLsum, hLzero⟩ :=
    settle_outer ((balancesOf splits payments).filter (fun p => jgt p.2 (some tol)))
      ((balancesOf splits payments).filter (fun p => jlt p.2 (some (-tol))))
      { balances := balancesOf splits payments, debts := [] } hD hnodupD
  have hform : calculateDebts splits payments =
      ((((balancesOf splits payments).filter (fun p => jlt p.2 (some (-tol)))).foldl
        (settleDebtor ((balancesOf splits payments).filter (fun p => jgt p.2 (some tol))))
        { balances := balancesOf splits payments, debts := [] }).debts).filter
        (fun debt => jgt debt.amount (some tol)) := rfl
  have hLfin : calculateDebts splits payments = L := by
    rw [hform, hLdebts, List.nil_append]
    apply List.filter_eq_self.mpr
    intro t ht
    obtain ⟨b, _, _, hOK⟩ := hLok t ht
    obtain ⟨_, a, cv, ha, hta, _⟩ := hOK
    rw [ha]
    simp only [jgt, decide_eq_true_eq]
    exact hta
  constructor
  · intro t ht
    rw [hLfin] at ht
    obtain ⟨b, hmemD, hbtol, hOK⟩ := hLok t ht
    obtain ⟨_, a, cv, ha, _, har, hmemC, hcvtol, hacv⟩ := hOK
    refine ⟨a, b, cv, ha, List.mem_of_mem_filter hmemD, ?_, har,
      List.mem_of_mem_filter hmemC, ?_, hacv⟩
    · rw [← tol_eq]
      exact hbtol
    · rw [← tol_eq]
      exact hcvtol
  · intro u bD hmem hbD
    rw [hLfin]
    refine hLsum u bD (List.mem_filter.mpr ⟨hmem, ?_⟩) ?_
    · simp only [jlt, decide_eq_true_eq]
      rw [tol_eq]
      exact hbD
    · rw [tol_eq]
      exact hbD

/-- Witness for the amended C1 theorem on the conservation counterexample
input: the transfer `a → c` of 20 satisfies all bounds, and debtor `a` (debt
30) sends at most 30 in total. -/
theorem calculateDebts_bounds_witness :
    (∃ a bD cv, (Debt.mk "a" "c" (some 20)).amount = some a ∧
      ((Debt.mk "a" "c" (some 20)).from_, some bD) ∈ balancesOf cexSplits cexPayments ∧
      bD < -(1 / 100) ∧ a ≤ -bD ∧
      ((Debt.mk "a" "c" (some 20)).to_, some cv) ∈ balancesOf cexSplits cexPayments ∧
      1 / 100 < cv ∧ a ≤ cv) ∧
    sentBy (calculateDebts cexSplits cexPayments) "a" ≤ 30 := by
  constructor
  · exact (calculateDebts_bounds cexSplits cexPayments).1 (Debt.mk "a" "c" (some 20))
      (by decide)
  · have h := (calculateDebts_bounds cexSplits cexPayments).2 "a" (-30) (by decide)
      (by norm_num)
    simpa using h

end Even
